import Mathlib

/-!
Shallow embedding of the go-atexit package (files atexit.go and init.go).

Callbacks are modelled by their observable behaviour: the text they append to a
shared buffer and whether they panic after appending.  A Go `func()` value may
be nil, so registry entries hold `Option Callback` (`none` models a nil
function value; calling it panics at call time).

Go's `sort.Stable` with `Less i j := fs[i].Prio < fs[j].Prio` is a stable
ascending sort by priority; `List.insertionSort` with `a.Prio ≤ b.Prio` is
exactly such a stable ascending sort, so it is used as the model of
`sort.Stable(exitfuncs)`.

The mutable package globals of atexit.go (`executed`, `priority`, `exitfuncs`,
the cancellable context and the `executech` channel) become fields of `State`;
the globals of init.go (`initprio`, `initfuncs`) become fields of `InitState`.
`ExitFunc` (default `os.Exit`) is modelled by recording the codes passed to it
in `exitCodes`.
-/

namespace Atexit

/-- Observable behaviour of a registered Go callback: the text it appends to
the shared test buffer, and whether it panics after appending. -/
structure Callback where
  out : String
  panics : Bool
deriving Repr, DecidableEq

/-- Model of `type priofunc struct { Func func(); Prio int }`.  The `Func`
field is `Option Callback` because a Go function value may be nil. -/
structure priofunc where
  Func : Option Callback
  Prio : Int
deriving Repr, DecidableEq

/-- The sort order used by `priofuncs.Less`: ascending priority. -/
def prioLe (a b : priofunc) : Prop := a.Prio ≤ b.Prio

instance : DecidableRel prioLe := fun a b => Int.decLe a.Prio b.Prio

instance : IsTotal priofunc prioLe := ⟨fun a b => Int.le_total a.Prio b.Prio⟩

instance : IsTrans priofunc prioLe := ⟨fun _ _ _ => Int.le_trans⟩

/-- Model of `sort.Stable(fs)` for `priofuncs`: a stable ascending sort by
priority (insertion sort is stable, as `sort.Stable` is). -/
def sortStable (fs : List priofunc) : List priofunc :=
  List.insertionSort prioLe fs

/-- The package-level mutable state of atexit.go. -/
structure State where
  /-- the `executed uint32` one-shot flag (0 or 1) -/
  executed : Nat
  /-- the `priority int64` counter for `OnExit`, starts at 99 -/
  priority : Int
  /-- the `exitfuncs priofuncs` registry -/
  exitfuncs : List priofunc
  /-- whether `cancel()` has been called on the context -/
  canceled : Bool
  /-- whether the `executech` channel has been closed -/
  closed : Bool
  /-- the shared buffer the test callbacks append to -/
  buffer : String
  /-- the codes passed to `ExitFunc` (default `os.Exit`) so far -/
  exitCodes : List Int
deriving Repr, DecidableEq

/-- The state at package initialization: `executed = 0`, `priority = 99`,
empty registry, context not canceled, `executech` open. -/
def initialState : State :=
  { executed := 0, priority := 99, exitfuncs := [], canceled := false,
    closed := false, buffer := "", exitCodes := [] }

/-- `OnExitWithPriority(priority, callback)`: panics (modelled as
`Except.error` carrying the panic message) when the callback is nil, before
the registry is touched; otherwise appends the entry and re-sorts stably. -/
def OnExitWithPriority (prio : Int) (cb : Option Callback) (s : State) :
    Except String State :=
  match cb with
  | none => Except.error "atexit.OnExitWithPriority: callback function is nil"
  | some _ =>
      Except.ok { s with exitfuncs := sortStable (s.exitfuncs ++ [{ Func := cb, Prio := prio }]) }

/-- `OnExit(callback)`: uses `atomic.AddInt64(&priority, 1)` (so the first
call registers at priority 100) and delegates to `OnExitWithPriority`. -/
def OnExit (cb : Option Callback) (s : State) : Except String State :=
  OnExitWithPriority (s.priority + 1) cb { s with priority := s.priority + 1 }

/-- Effect on the shared buffer of `func(f func()) { defer recover(); f() }(f)`:
calling a nil function panics and the panic is recovered with no output; a
non-nil callback appends its text, and a panic it raises is recovered. -/
def invokeRecover (buf : String) (f : priofunc) : String :=
  match f.Func with
  | none => buf
  | some c => buf ++ c.out

/-- The loop body of `execute`: run the given functions in order (the caller
passes `exitfuncs.reverse`, matching the back-to-front loop). -/
def runExitFuncs (fs : List priofunc) (buf : String) : String :=
  fs.foldl invokeRecover buf

/-- Model of `execute()`: if the compare-and-swap on `executed` wins (flag was
0), set the flag, cancel the context, run the registered functions from the
back of the sorted registry to the front, then close `executech`; otherwise
do nothing. -/
def execute (s : State) : State :=
  if s.executed = 0 then
    { s with executed := 1, canceled := true,
             buffer := runExitFuncs s.exitfuncs.reverse s.buffer,
             closed := true }
  else s

/-- Observable events emitted by one call of `execute()`. -/
inductive Event where
  /-- the context is canceled -/
  | cancel
  /-- the exit function of the entry `f` is invoked (inside `defer recover()`) -/
  | call (f : priofunc)
  /-- the `executech` channel is closed -/
  | closeChan
deriving Repr, DecidableEq

/-- The event trace of one call of `execute()` in state `s`: on a winning
compare-and-swap, cancel, then one `call` per registry entry from back to
front, then close `executech`; on a losing one, no events at all. -/
def executeTrace (s : State) : List Event :=
  if s.executed = 0 then
    Event.cancel :: (s.exitfuncs.reverse.map Event.call) ++ [Event.closeChan]
  else []

/-- The registry entry invoked by an event, if any. -/
def callOf (e : Event) : Option priofunc :=
  match e with
  | Event.call f => some f
  | _ => none

/-- The registry entries whose functions `execute()` invokes, in invocation
order (read off the `call` events of the trace). -/
def invocations (s : State) : List priofunc :=
  (executeTrace s).filterMap callOf

/-- `Executed()`: `atomic.LoadUint32(&executed) == 1`. -/
def Executed (s : State) : Bool := s.executed == 1

/-- `Exit(code)`: run `execute()` and then hand `code` to `ExitFunc`
(by default `os.Exit(code)`), recorded in `exitCodes`. -/
def Exit (code : Int) (s : State) : State :=
  let s1 := execute s
  { s1 with exitCodes := s1.exitCodes ++ [code] }

/-- `wait()` blocks receiving on `executech`; it can return at a point of an
execute trace only once the close event has been emitted there. -/
def waitCanReturn (pre : List Event) : Prop := Event.closeChan ∈ pre

/-- Registering a whole list of (priority, callback) pairs through
`OnExitWithPriority`, in order, starting from `s`.  All callbacks are
non-nil, so every registration succeeds; the error branch is unreachable. -/
def registerExitList (rs : List (Int × Callback)) (s : State) : State :=
  rs.foldl
    (fun st pc =>
      match OnExitWithPriority pc.1 (some pc.2) st with
      | Except.ok st2 => st2
      | Except.error _ => st)
    s

/-- The registry entry created for a (priority, callback) registration. -/
def regEntry (pc : Int × Callback) : priofunc :=
  { Func := some pc.2, Prio := pc.1 }

end Atexit

namespace Atexit

/-- The states observed at the entry of each callback invocation inside the
loop of `execute` (the loop runs over `exitfuncs.reverse`). -/
def loopStates : List priofunc → State → List State
  | [], _ => []
  | f :: fs, st => st :: loopStates fs { st with buffer := invokeRecover st.buffer f }

/-- The intermediate states of one winning call of `execute()`: the flag and
the context are updated before the loop, `executech` is closed only after
it; a losing call has no intermediate states. -/
def executeStates (s : State) : List State :=
  if s.executed = 0 then
    loopStates s.exitfuncs.reverse { s with executed := 1, canceled := true }
  else []

/-- The public operations of atexit.go that mutate the package state. -/
inductive Op where
  | onExitWithPriority (p : Int) (c : Option Callback)
  | onExit (c : Option Callback)
  | executeOp
  | exitOp (code : Int)
deriving Repr, DecidableEq

/-- Applying one public operation to the state (a panicking registration
leaves the state unchanged). -/
def applyOp (op : Op) (s : State) : State :=
  match op with
  | Op.onExitWithPriority p c =>
      match OnExitWithPriority p c s with
      | Except.ok s2 => s2
      | Except.error _ => s
  | Op.onExit c =>
      match OnExit c s with
      | Except.ok s2 => s2
      | Except.error _ => s
  | Op.executeOp => execute s
  | Op.exitOp code => Exit code s

/-- Applying a sequence of public operations, left to right. -/
def applyOps (ops : List Op) (s : State) : State :=
  ops.foldl (fun t op => applyOp op t) s

end Atexit

namespace Atexit

/-- The package-level mutable state of init.go. -/
structure InitState where
  /-- the `initprio int64` counter, starts at 99 -/
  initprio : Int
  /-- the `initfuncs priofuncs` registry -/
  initfuncs : List priofunc
  /-- the shared buffer the test callbacks append to -/
  buffer : String
  /-- whether a callback panic has escaped `Init` (init.go has no recover) -/
  panicked : Bool
deriving Repr, DecidableEq

/-- The init-side state at package initialization. -/
def initInitialState : InitState :=
  { initprio := 99, initfuncs := [], buffer := "", panicked := false }

/-- `RegisterInitWithPriority(priority, init)`: init.go performs no nil
check — the entry is appended (then stably sorted) even when the function is
nil. -/
def RegisterInitWithPriority (prio : Int) (cb : Option Callback) (s : InitState) :
    InitState :=
  { s with initfuncs := sortStable (s.initfuncs ++ [{ Func := cb, Prio := prio }]) }

/-- `RegisterInit(init)`: uses `atomic.AddInt64(&initprio, 1)` (first call
registers at priority 100). -/
def RegisterInit (cb : Option Callback) (s : InitState) : InitState :=
  RegisterInitWithPriority (s.initprio + 1) cb { s with initprio := s.initprio + 1 }

/-- `OnInitWithPriority` is the alias of `RegisterInitWithPriority`. -/
def OnInitWithPriority (prio : Int) (cb : Option Callback) (s : InitState) :
    InitState :=
  RegisterInitWithPriority prio cb s

/-- `OnInit` is the alias of `RegisterInit`. -/
def OnInit (cb : Option Callback) (s : InitState) : InitState :=
  RegisterInit cb s

/-- The loop of `Init()` on the buffer: callbacks run front to back with no
recover, so calling a nil function, or a callback that panics, aborts the
loop; the boolean reports whether a panic escaped. -/
def runInitFuncs : List priofunc → String → String × Bool
  | [], buf => (buf, false)
  | f :: fs, buf =>
      match f.Func with
      | none => (buf, true)
      | some c => if c.panics then (buf ++ c.out, true) else runInitFuncs fs (buf ++ c.out)

/-- The registry entries whose functions `Init()` invokes, in invocation
order: front to back, stopping at (and including) the first entry whose call
panics. -/
def runInitCalls : List priofunc → List priofunc
  | [] => []
  | f :: fs =>
      match f.Func with
      | none => [f]
      | some c => if c.panics then [f] else f :: runInitCalls fs

/-- Model of `Init()`. -/
def Init (s : InitState) : InitState :=
  { s with buffer := (runInitFuncs s.initfuncs s.buffer).1,
           panicked := (runInitFuncs s.initfuncs s.buffer).2 }

end Atexit

namespace Atexit

/-- The six registrations of the concrete exit scenario: priorities
1, 2, 3, 3, 2, 1 with callbacks appending "1" through "6". -/
def c2_regs : List (Int × Callback) :=
  [(1, { out := "1", panics := false }), (2, { out := "2", panics := false }),
   (3, { out := "3", panics := false }), (3, { out := "4", panics := false }),
   (2, { out := "5", panics := false }), (1, { out := "6", panics := false })]

/-- The state after the six registrations of the concrete exit scenario. -/
def c2_state : State := registerExitList c2_regs initialState

/-- Total output of a list of registry entries when every one of them is
invoked (a nil function contributes nothing). -/
def outputs : List priofunc → String
  | [] => ""
  | f :: fs => (match f.Func with | none => "" | some c => c.out) ++ outputs fs

/-- The init-side state of the concrete init scenario: two default-priority
registrations, then explicit priorities 20, 10, 10, 30, then one more
default-priority registration. -/
def c7_state : InitState :=
  let s1 := RegisterInit (some { out := "init1\n", panics := false }) initInitialState
  let s2 := RegisterInit (some { out := "init2\n", panics := false }) s1
  let s3 := RegisterInitWithPriority 20 (some { out := "init3\n", panics := false }) s2
  let s4 := RegisterInitWithPriority 10 (some { out := "init4\n", panics := false }) s3
  let s5 := RegisterInitWithPriority 10 (some { out := "init5\n", panics := false }) s4
  let s6 := RegisterInitWithPriority 30 (some { out := "init6\n", panics := false }) s5
  RegisterInit (some { out := "init7\n", panics := false }) s6

/-- Two equal-priority exit registrations: first a callback writing "a",
then a callback writing "b". -/
def c1_state : State :=
  registerExitList
    [(0, { out := "a", panics := false }), (0, { out := "b", panics := false })]
    initialState

/-- The boolean test for the filter that isolates one priority class. -/
def prioEq (p : Int) (f : priofunc) : Bool := f.Prio == p

/-- A registry entry whose call completes normally. -/
def okFunc (f : priofunc) : Prop := ∃ c, f.Func = some c ∧ c.panics = false

/-- A registry entry whose call panics: a nil function value or a callback
that panics. -/
def faultyFunc (f : priofunc) : Prop :=
  f.Func = none ∨ ∃ c, f.Func = some c ∧ c.panics = true

/-- A concrete entry whose call completes normally. -/
def okEntry : priofunc := { Func := some { out := "k", panics := false }, Prio := 2 }

/-- A concrete entry whose call panics. -/
def badEntry : priofunc := { Func := some { out := "b", panics := true }, Prio := 1 }

/-- A not-yet-executed state holding one panicking and one normal exit
callback. -/
def c6_wstate : State :=
  { executed := 0, priority := 99, exitfuncs := [badEntry, okEntry],
    canceled := false, closed := false, buffer := "", exitCodes := [] }

/-- A not-yet-executed state holding one panicking exit callback. -/
def c8_wstate : State :=
  { executed := 0, priority := 99, exitfuncs := [badEntry],
    canceled := false, closed := false, buffer := "", exitCodes := [] }

/-- A state in which execution has already completed. -/
def c9_wstate : State := execute initialState

/-- A not-yet-executed state holding one exit callback that writes "a". -/
def c10_wstate : State :=
  { executed := 0, priority := 99,
    exitfuncs := [{ Func := some { out := "a", panics := false }, Prio := 1 }],
    canceled := false, closed := false, buffer := "", exitCodes := [] }

/-- The state `c10_wstate` reaches at the moment its single callback starts
running: flag set and context canceled, channel still open, buffer still
empty. -/
def c10_midstate : State :=
  { executed := 1, priority := 99,
    exitfuncs := [{ Func := some { out := "a", panics := false }, Prio := 1 }],
    canceled := true, closed := false, buffer := "", exitCodes := [] }

end Atexit

namespace Atexit

/-- C2: after registering six exit callbacks with priorities 1,2,3,3,2,1
appending "1".."6" to an initially empty shared buffer, `Execute()` leaves
the buffer equal to "435261". -/
theorem c2_exit_buffer_is_435261 : (execute c2_state).buffer = "435261" := by
  decide

/-- C1 (counterexample): two callbacks registered with the same priority 0,
the first appending "a" and the second "b", are run by `Execute()` in
reverse registration order — the buffer becomes "ba", not the "ab" that
earliest-registered-first would produce. -/
theorem c1_equal_priority_runs_reversed :
    (execute c1_state).buffer = "ba" ∧ (execute c1_state).buffer ≠ "ab" := by
  decide

/-- C4 (counterexample): after `Execute()` has completed once, a further
`Exit 0` is not a silent no-op — it still hands the code 0 to `ExitFunc`
(by default `os.Exit`), an observable effect. -/
theorem c4_exit_after_execute_not_noop :
    Exit 0 (execute initialState) ≠ execute initialState ∧
      (Exit 0 (execute initialState)).exitCodes = [0] ∧
      (execute initialState).exitCodes = [] := by
  decide

/-- C5 (counterexample): `RegisterInitWithPriority 5 nil` does not panic —
init.go has no nil check, so the nil entry is appended to the registry
(the exit-side registration with a nil callback does panic). -/
theorem c5_init_nil_registration_accepted :
    (RegisterInitWithPriority 5 none initInitialState).initfuncs
      = [{ Func := none, Prio := 5 }] := by
  decide

/-- C7: after registering init callbacks printing init1, init2 at default
priorities, init3..init6 at explicit priorities 20, 10, 10, 30, and init7 at
a default priority, `Init()` produces exactly the output order
init4, init5, init3, init6, init1, init2, init7. -/
theorem c7_init_output_order :
    (Init c7_state).buffer
        = "init4\ninit5\ninit3\ninit6\ninit1\ninit2\ninit7\n" ∧
      (Init c7_state).panicked = false := by
  decide

end Atexit

namespace Atexit

/-- Filtering one priority class commutes with ordered insertion: an entry of
that class lands in front of the class (stability never moves it past an
equal-priority entry already present), any other entry leaves the class
untouched. -/
theorem filter_orderedInsert_prio (p : Int) (a : priofunc) :
    ∀ l : List priofunc,
      (List.orderedInsert prioLe a l).filter (prioEq p)
        = if prioEq p a then a :: l.filter (prioEq p) else l.filter (prioEq p)
  | [] => by simp [List.orderedInsert, List.filter_cons]
  | b :: t => by
      by_cases hab : prioLe a b
      · rw [List.orderedInsert, if_pos hab]
        by_cases hqa : prioEq p a = true <;> simp [List.filter_cons, hqa]
      · rw [List.orderedInsert, if_neg hab]
        have ih := filter_orderedInsert_prio p a t
        by_cases hqa : prioEq p a = true
        · have hqb : prioEq p b = false := by
            have h1 : a.Prio = p := by simpa [prioEq] using hqa
            have h2 : ¬ a.Prio ≤ b.Prio := hab
            simp only [prioEq, beq_eq_false_iff_ne]
            omega
          simp [List.filter_cons, hqb, ih, hqa]
        · simp [List.filter_cons, ih, hqa]

/-- The stable sort leaves every priority class unchanged, in content and in
order. -/
theorem filter_sortStable (p : Int) : ∀ l : List priofunc,
    (sortStable l).filter (prioEq p) = l.filter (prioEq p)
  | [] => rfl
  | a :: l => by
      have ih := filter_sortStable p l
      simp only [sortStable, List.insertionSort] at ih ⊢
      rw [filter_orderedInsert_prio, ih]
      by_cases hqa : prioEq p a = true <;> simp [List.filter_cons, hqa]

/-- Unfolding one registration step of `registerExitList`. -/
theorem registerExitList_cons (pc : Int × Callback) (rs : List (Int × Callback))
    (s : State) :
    registerExitList (pc :: rs) s
      = registerExitList rs
          { s with exitfuncs := sortStable (s.exitfuncs ++ [regEntry pc]) } := rfl

/-- Registration never touches the one-shot flag. -/
theorem registerExitList_executed : ∀ (rs : List (Int × Callback)) (s : State),
    (registerExitList rs s).executed = s.executed
  | [], _ => rfl
  | pc :: rs, s => by
      rw [registerExitList_cons]
      exact registerExitList_executed rs _

/-- Each priority class of the registry equals that class of the raw
registration sequence: the stable re-sorts never reorder a class. -/
theorem registerExitList_filter (p : Int) : ∀ (rs : List (Int × Callback)) (s : State),
    (registerExitList rs s).exitfuncs.filter (prioEq p)
      = (s.exitfuncs ++ rs.map regEntry).filter (prioEq p)
  | [], s => by simp [registerExitList]
  | pc :: rs, s => by
      rw [registerExitList_cons, registerExitList_filter p rs]
      by_cases hq : prioEq p (regEntry pc) = true <;>
        simp [List.filter_append, filter_sortStable, List.filter_cons, hq]

/-- The registry produced by `sortStable` is sorted by ascending priority. -/
theorem sorted_sortStable (l : List priofunc) : List.Sorted prioLe (sortStable l) :=
  List.sorted_insertionSort prioLe l

/-- Registration keeps the registry sorted by ascending priority. -/
theorem sorted_registerExitList : ∀ (rs : List (Int × Callback)) (s : State),
    List.Sorted prioLe s.exitfuncs →
    List.Sorted prioLe (registerExitList rs s).exitfuncs
  | [], _, h => h
  | pc :: rs, s, _ => by
      rw [registerExitList_cons]
      exact sorted_registerExitList rs _ (sorted_sortStable _)

/-- Reading the invoked entries back out of a pure `call` block. -/
theorem filterMap_callOf_map (l : List priofunc) :
    l.filterMap (callOf ∘ Event.call) = l := by
  induction l with
  | nil => rfl
  | cons f t ih => simp [List.filterMap_cons, callOf, Function.comp, ih]

/-- On a winning call, `execute` invokes exactly the registry entries, from
the back of the sorted registry to the front. -/
theorem invocations_eq_reverse (s : State) (h : s.executed = 0) :
    invocations s = s.exitfuncs.reverse := by
  simp [invocations, executeTrace, h, callOf, filterMap_callOf_map]

/-- The loop of `execute` appends the output of every registered function:
a recovered panic in one callback never suppresses a later callback. -/
theorem runExitFuncs_eq : ∀ (fs : List priofunc) (buf : String),
    runExitFuncs fs buf = buf ++ outputs fs
  | [], buf => by simp [runExitFuncs, outputs]
  | f :: fs, buf => by
      have ih := runExitFuncs_eq fs (invokeRecover buf f)
      simp only [runExitFuncs, List.foldl_cons] at ih ⊢
      rw [ih]
      cases hf : f.Func <;> simp [outputs, invokeRecover, hf, String.append_assoc]

/-- `Init`'s loop runs the entries before a faulting one, runs the faulting
one, and runs nothing after it. -/
theorem runInitCalls_stops : ∀ (fs : List priofunc) (g : priofunc) (hs : List priofunc),
    (∀ f ∈ fs, okFunc f) → faultyFunc g →
    runInitCalls (fs ++ g :: hs) = fs ++ [g]
  | [], g, hs, _, hg => by
      rcases hg with hnil | ⟨c, hc, hp⟩
      · simp [runInitCalls, hnil]
      · simp [runInitCalls, hc, hp]
  | f :: fs, g, hs, hok, hg => by
      rcases hok f (List.mem_cons_self f fs) with ⟨c, hc, hp⟩
      have ih := runInitCalls_stops fs g hs (fun x hx => hok x (List.mem_cons_of_mem f hx)) hg
      simp [runInitCalls, hc, hp, ih]

/-- No public operation ever clears the one-shot flag. -/
theorem applyOp_executed (op : Op) (s : State) (h : s.executed = 1) :
    (applyOp op s).executed = 1 := by
  cases op with
  | onExitWithPriority p c => cases c <;> simp [applyOp, OnExitWithPriority, h]
  | onExit c => cases c <;> simp [applyOp, OnExit, OnExitWithPriority, h]
  | executeOp => simp [applyOp, execute, h]
  | exitOp code => simp [applyOp, Exit, execute, h]

/-- No sequence of public operations ever clears the one-shot flag. -/
theorem applyOps_executed : ∀ (ops : List Op) (s : State), s.executed = 1 →
    (applyOps ops s).executed = 1
  | [], _, h => h
  | op :: ops, s, h => by
      have h2 := applyOps_executed ops (applyOp op s) (applyOp_executed op s h)
      simpa [applyOps, List.foldl_cons] using h2

/-- The loop of `execute` never changes the one-shot flag: every state it
passes through carries the flag of the state that entered the loop. -/
theorem loopStates_executed : ∀ (fs : List priofunc) (st st2 : State),
    st2 ∈ loopStates fs st → st2.executed = st.executed
  | [], _, _, h => absurd h (List.not_mem_nil _)
  | f :: fs, st, st2, h => by
      rcases List.mem_cons.mp h with rfl | h2
      · rfl
      · have h3 :=
          loopStates_executed fs { st with buffer := invokeRecover st.buffer f } st2 h2
        exact h3

end Atexit

namespace Atexit

/-- C1 (amended): for every sequence of `OnExitWithPriority` registrations,
`Execute()` runs callbacks that share the same priority in reverse
registration order (latest-registered first): each priority class of the
invocation sequence is the reverse of that class of the registration
sequence. -/
theorem c1_amended_equal_priority_reverse (rs : List (Int × Callback)) (p : Int) :
    (invocations (registerExitList rs initialState)).filter (prioEq p)
      = ((rs.map regEntry).filter (prioEq p)).reverse := by
  rw [invocations_eq_reverse _ (registerExitList_executed rs initialState)]
  rw [List.filter_reverse]
  rw [registerExitList_filter p rs initialState]
  simp [initialState]

/-- C3: for every sequence of `OnExitWithPriority` registrations, `Execute()`
invokes the registered callbacks in descending priority order: whenever one
invoked entry has a strictly higher priority than another, it occurs earlier
in the invocation sequence (the sequence is pairwise non-increasing in
priority). -/
theorem c3_descending_priority_order (rs : List (Int × Callback)) :
    List.Pairwise (fun a b : priofunc => b.Prio ≤ a.Prio)
      (invocations (registerExitList rs initialState)) := by
  rw [invocations_eq_reverse _ (registerExitList_executed rs initialState)]
  rw [List.pairwise_reverse]
  exact sorted_registerExitList rs initialState List.sorted_nil

/-- C4 (amended): after `Execute()` has completed once, a further `Execute()`
is a silent no-op (no state change, no events), and a further `Exit(code)`
invokes no registered exit callback but still calls `ExitFunc(code)` — by
default `os.Exit`, terminating the process with the code. -/
theorem c4_amended_exit_still_calls_exitfunc (s : State) (code : Int)
    (h : s.executed = 1) :
    execute s = s ∧ executeTrace s = [] ∧
      Exit code s = { s with exitCodes := s.exitCodes ++ [code] } := by
  refine ⟨?_, ?_, ?_⟩ <;> simp [execute, executeTrace, Exit, h]

/-- Witness for C4 at a concrete completed state. -/
theorem c4_amended_witness :
    (execute initialState).executed = 1 ∧
      (execute (execute initialState) = execute initialState ∧
        executeTrace (execute initialState) = [] ∧
        Exit 7 (execute initialState)
          = { execute initialState with
                exitCodes := (execute initialState).exitCodes ++ [7] }) :=
  ⟨rfl, c4_amended_exit_still_calls_exitfunc (execute initialState) 7 rfl⟩

/-- C5 (amended): `OnExitWithPriority(p, nil)` panics at registration time,
before the entry is added; `RegisterInitWithPriority(p, nil)` performs no nil
check — the nil entry is added to the init registry, and the panic happens
only later, when `Init()` calls the nil function. -/
theorem c5_amended_nil_check_asymmetry (p : Int) (s : State) (si : InitState) :
    OnExitWithPriority p none s
        = Except.error "atexit.OnExitWithPriority: callback function is nil" ∧
      ({ Func := none, Prio := p } : priofunc)
          ∈ (RegisterInitWithPriority p none si).initfuncs ∧
      ∀ (prio0 : Int) (buf : String),
        (Init { initprio := prio0, initfuncs := [{ Func := none, Prio := p }],
                buffer := buf, panicked := false }).panicked = true := by
  refine ⟨rfl, ?_, ?_⟩
  · simp [RegisterInitWithPriority, sortStable, List.mem_insertionSort]
  · intro prio0 buf
    rfl

/-- C6: a panic inside one exit callback is caught at that callback's
boundary, so every registered exit callback is still attempted and the loop
appends every callback's output; a panic inside one init callback is not
caught, so `Init()` runs the callbacks before the faulting one, the faulting
one, and none after it. -/
theorem c6_exit_isolates_init_aborts :
    (∀ (s : State) (f : priofunc), s.executed = 0 → f ∈ s.exitfuncs →
        Event.call f ∈ executeTrace s) ∧
      (∀ (fs : List priofunc) (buf : String),
        runExitFuncs fs buf = buf ++ outputs fs) ∧
      (∀ (fs : List priofunc) (g : priofunc) (hs : List priofunc),
        (∀ f ∈ fs, okFunc f) → faultyFunc g →
        runInitCalls (fs ++ g :: hs) = fs ++ [g]) := by
  refine ⟨?_, runExitFuncs_eq, runInitCalls_stops⟩
  intro s f h hf
  simp [executeTrace, h, List.mem_cons, List.mem_append, List.mem_map, hf]

/-- Witness for C6 at concrete inputs: the panicking entry is attempted
together with the normal one on the exit side, while on the init side
nothing after the faulting entry runs. -/
theorem c6_witness :
    Event.call badEntry ∈ executeTrace c6_wstate ∧
      runExitFuncs [badEntry, okEntry] "" = "" ++ outputs [badEntry, okEntry] ∧
      runInitCalls ([okEntry] ++ badEntry :: [okEntry]) = [okEntry] ++ [badEntry] := by
  refine ⟨?_, ?_, ?_⟩
  · exact c6_exit_isolates_init_aborts.1 c6_wstate badEntry rfl (by decide)
  · exact c6_exit_isolates_init_aborts.2.1 [badEntry, okEntry] ""
  · refine c6_exit_isolates_init_aborts.2.2 [okEntry] badEntry [okEntry] ?_ ?_
    · intro f hf
      rw [List.mem_singleton] at hf
      subst hf
      exact ⟨_, rfl, rfl⟩
    · exact Or.inr ⟨_, rfl, rfl⟩

/-- C8: `Wait()` (blocked on `executech`) can return only at a point of the
execute trace where the close event has been emitted, and on a winning call
that point lies after every registered callback — panicking or not — has
been attempted; the close event is the very last event of the run. -/
theorem c8_wait_only_after_run_finished (s : State) (h : s.executed = 0) :
    (∀ (pre rest : List Event), executeTrace s = pre ++ rest →
        waitCanReturn pre → ∀ f ∈ s.exitfuncs, Event.call f ∈ pre) ∧
      (executeTrace s).getLast? = some Event.closeChan := by
  have htr : executeTrace s
      = (Event.cancel :: s.exitfuncs.reverse.map Event.call) ++ [Event.closeChan] := by
    simp [executeTrace, h]
  constructor
  · intro pre rest heq hw f hf
    rw [htr] at heq
    have hnotin :
        Event.closeChan ∉ Event.cancel :: s.exitfuncs.reverse.map Event.call := by
      simp
    rcases List.append_eq_append_iff.mp heq.symm with ⟨a', ha, _⟩ | ⟨c', hc, _⟩
    · apply absurd _ hnotin
      rw [ha]
      exact List.mem_append_left a' hw
    · have hfin : Event.call f ∈ Event.cancel :: s.exitfuncs.reverse.map Event.call :=
        List.mem_cons_of_mem _ (List.mem_map_of_mem _ (List.mem_reverse.mpr hf))
      rw [hc]
      exact List.mem_append_left c' hfin
  · rw [htr, List.getLast?_concat]

/-- Witness for C8 at a concrete not-yet-executed state whose single
callback panics. -/
theorem c8_witness :
    c8_wstate.executed = 0 ∧
      ((∀ (pre rest : List Event), executeTrace c8_wstate = pre ++ rest →
          waitCanReturn pre → ∀ f ∈ c8_wstate.exitfuncs, Event.call f ∈ pre) ∧
        (executeTrace c8_wstate).getLast? = some Event.closeChan) :=
  ⟨rfl, c8_wait_only_after_run_finished c8_wstate rfl⟩

/-- C9: a callback registered through `OnExitWithPriority` after `Execute()`
has completed is accepted — the registration succeeds and the entry joins the
registry — but no subsequent `Execute()` or `Exit()` ever invokes it:
`execute` is a no-op, its trace is empty, and `Exit` leaves the buffer
unchanged. -/
theorem c9_late_registration_never_runs (s : State) (p : Int) (c : Callback)
    (code : Int) (h : s.executed = 1) :
    ∃ s2 : State,
      OnExitWithPriority p (some c) s = Except.ok s2 ∧
        ({ Func := some c, Prio := p } : priofunc) ∈ s2.exitfuncs ∧
        execute s2 = s2 ∧ executeTrace s2 = [] ∧
        (Exit code s2).buffer = s2.buffer := by
  refine ⟨_, rfl, ?_, ?_, ?_, ?_⟩
  · simp [sortStable, List.mem_insertionSort]
  · simp [execute, h]
  · simp [executeTrace, h]
  · simp [Exit, execute, h]

/-- Witness for C9 at the concrete completed state. -/
theorem c9_witness :
    c9_wstate.executed = 1 ∧
      (∃ s2 : State,
        OnExitWithPriority 3 (some { out := "late", panics := false }) c9_wstate
            = Except.ok s2 ∧
          ({ Func := some { out := "late", panics := false }, Prio := 3 } : priofunc)
              ∈ s2.exitfuncs ∧
          execute s2 = s2 ∧ executeTrace s2 = [] ∧
          (Exit 0 s2).buffer = s2.buffer) :=
  ⟨rfl, c9_late_registration_never_runs c9_wstate 3 { out := "late", panics := false } 0 rfl⟩

/-- C10: `Executed()` reads true in every state observed during a winning
call of `execute()` (the flag is set before the loop starts, so a callback
querying it mid-run sees true); no sequence of public operations ever makes
it true-then-false again; and `Executed() = true` does not imply the
callbacks have finished — there is a mid-run state with the flag set, the
channel still open and the buffer not yet final. -/
theorem c10_executed_flag_semantics :
    (∀ (s st : State), s.executed = 0 → st ∈ executeStates s → Executed st = true) ∧
      (∀ (ops : List Op) (s : State), Executed s = true →
        Executed (applyOps ops s) = true) ∧
      (∃ (s st : State), st ∈ executeStates s ∧ Executed st = true ∧
        st.closed = false ∧ st.buffer ≠ (execute s).buffer) := by
  refine ⟨?_, ?_, ⟨c10_wstate, c10_midstate, by decide, by decide, by decide, by decide⟩⟩
  · intro s st h hm
    rw [executeStates, if_pos h] at hm
    have h1 := loopStates_executed _ _ st hm
    simp [Executed, h1]
  · intro ops s h
    have h1 : s.executed = 1 := by simpa [Executed] using h
    simp [Executed, applyOps_executed ops s h1]

/-- Witness for C10: the mid-run state of the concrete one-callback run
observes the flag, and the flag survives a further operation. -/
theorem c10_witness :
    Executed c10_midstate = true ∧
      Executed (applyOps [Op.executeOp] c10_midstate) = true :=
  ⟨c10_executed_flag_semantics.1 c10_wstate c10_midstate rfl (by decide),
   c10_executed_flag_semantics.2.1 [Op.executeOp] c10_midstate (by decide)⟩

end Atexit
